import Mathlib

/-!
Verification of the KindredEngine Linux filesystem adapters.

The repository contains two variants of the same adapter:
  * `src/blacksmith_subsystems/src/platforms/linux/filesystem.rs`
    (multi-root `Filesystem`, keyed by `RootDir`), embedded below in
    namespace `Blacksmith`;
  * `src/src/systems/platforms/linux/filesystem.rs`
    (single-root `Filesystem`, rooted at the process current directory),
    embedded below in namespace `SrcFs`.

Paths are modelled at two levels:
  * string level: `pushPath` mirrors Rust `PathBuf::push` on Unix
    (an absolute pushed path replaces the buffer; otherwise a `/`
    separator is inserted unless the buffer is empty or already ends
    with one);
  * component level: `components` mirrors how both the OS and Rust
    `Path` equality interpret a path string, as its list of non-empty
    `/`-separated components.

The world of filesystem entries visible to the OS calls is an
association list from component paths to entry kinds, together with the
process current working directory (which matters because `rm` in both
variants passes the caller's relative path, not the resolved absolute
path, to `fs::remove_dir` / `fs::remove_file`).
-/

namespace KindredFs

/-- True when the first character of the list is the path separator.
Mirrors `Path::is_absolute` on Unix for the pushed path. -/
def headIsSlash : List Char → Bool
  | [] => false
  | c :: _ => decide (c = '/')

/-- True when the last character of the list is the path separator.
Mirrors the `need_sep` test of Rust `PathBuf::push`. -/
def lastIsSlash : List Char → Bool
  | [] => false
  | [c] => decide (c = '/')
  | _ :: c :: cs => lastIsSlash (c :: cs)

/-- Character-list core of Rust `PathBuf::push` on Unix: an absolute
path replaces the buffer; otherwise a separator is appended first
unless the buffer is empty or already ends with a separator. -/
def pushData (buf p : List Char) : List Char :=
  if headIsSlash p then p
  else if lastIsSlash buf then buf ++ p
  else if buf.isEmpty then p
  else buf ++ '/' :: p

/-- Rust `PathBuf::push` on Unix, at the string level. -/
def pushPath (buf p : String) : String :=
  ⟨pushData buf.data p.data⟩

/-- Splits a character list at every `/`, keeping empty groups.
Auxiliary to `components`. -/
def splitSlash : List Char → List (List Char)
  | [] => [[]]
  | c :: cs =>
    if c = '/' then [] :: splitSlash cs
    else
      match splitSlash cs with
      | [] => [[c]]
      | g :: gs => (c :: g) :: gs

/-- Character-list level components of a path: the non-empty
`/`-separated groups. This is how the OS and Rust `Path` equality
(`Path::components`) interpret a path string. -/
def componentsL (l : List Char) : List (List Char) :=
  (splitSlash l).filter (fun g => !g.isEmpty)

/-- The components of a path string, as strings. -/
def components (s : String) : List String :=
  (componentsL s.data).map (fun g => String.mk g)

theorem splitSlash_ne_nil (l : List Char) : splitSlash l ≠ [] := by
  induction l with
  | nil => simp [splitSlash]
  | cons c cs ih =>
    by_cases h : c = '/'
    · simp [splitSlash, h]
    · simp only [splitSlash, if_neg h]
      cases hs : splitSlash cs with
      | nil => simp
      | cons g gs => simp

theorem splitSlash_append_slash (a b : List Char) :
    splitSlash (a ++ '/' :: b) = splitSlash a ++ splitSlash b := by
  induction a with
  | nil => simp [splitSlash]
  | cons c cs ih =>
    by_cases h : c = '/'
    · simp [splitSlash, h, ih]
    · simp only [List.cons_append, splitSlash, if_neg h]
      cases hs : splitSlash cs with
      | nil => exact absurd hs (splitSlash_ne_nil cs)
      | cons g gs => simp only [List.append_eq]; rw [ih, hs]; simp

theorem componentsL_append_slash (a b : List Char) :
    componentsL (a ++ '/' :: b) = componentsL a ++ componentsL b := by
  unfold componentsL
  rw [splitSlash_append_slash, List.filter_append]

theorem componentsL_nil : componentsL [] = [] := by
  simp [componentsL, splitSlash]

theorem lastIsSlash_ex {l : List Char} (h : lastIsSlash l = true) :
    ∃ l', l = l' ++ ['/'] := by
  induction l with
  | nil => simp [lastIsSlash] at h
  | cons c cs ih =>
    cases cs with
    | nil =>
      simp [lastIsSlash] at h
      exact ⟨[], by simp [h]⟩
    | cons c' cs' =>
      have h' : lastIsSlash (c' :: cs') = true := h
      obtain ⟨l', hl⟩ := ih h'
      exact ⟨c :: l', by simp [hl]⟩

/-- Pushing a relative path distributes over components: the result's
components are those of the buffer followed by those of the pushed
path. -/
theorem componentsL_pushData (buf p : List Char) (h : headIsSlash p = false) :
    componentsL (pushData buf p) = componentsL buf ++ componentsL p := by
  unfold pushData
  rw [h]
  simp only [Bool.false_eq_true, if_false]
  by_cases hl : lastIsSlash buf
  · rw [if_pos hl]
    obtain ⟨l', rfl⟩ := lastIsSlash_ex hl
    have h1 : l' ++ ['/'] ++ p = l' ++ '/' :: p := by simp
    have h2 : l' ++ ['/'] = l' ++ '/' :: ([] : List Char) := by simp
    rw [h1, componentsL_append_slash, h2, componentsL_append_slash, componentsL_nil]
    simp
  · rw [if_neg hl]
    by_cases he : buf.isEmpty
    · rw [if_pos he]
      have : buf = [] := by
        cases buf with
        | nil => rfl
        | cons x xs => simp [List.isEmpty] at he
      subst this
      rw [componentsL_nil]
      simp
    · rw [if_neg he, componentsL_append_slash]

theorem components_pushPath (buf p : String) (h : headIsSlash p.data = false) :
    components (pushPath buf p) = components buf ++ components p := by
  unfold components pushPath
  simp only
  rw [componentsL_pushData buf.data p.data h, List.map_append]

theorem components_empty : components "" = [] := by
  simp [components, componentsL, splitSlash]

/-- Kind of a filesystem entry visible to the OS calls. -/
inductive EntryKind where
  | file
  | dir
deriving DecidableEq, Repr

/-- Modelled from the spec: `GameError` lives in blacksmith_core's
error_handling module, which is not part of this excerpt. Per the
spec's error taxonomy, `IOError` wraps an underlying OS-level failure
(and is what `GameError::from(io::Error)` produces), while
`FileSystemError` is a semantic precondition violation detected before
delegating to the OS. -/
inductive GameError where
  | IOError (msg : String)
  | FileSystemError (msg : String)
deriving DecidableEq, Repr

/-- Result type of the adapter operations. -/
abbrev GameResult (α : Type) := Except GameError α

/-- The OS filesystem state: entries keyed by component path, plus the
process current working directory (which the OS uses to resolve any
relative path handed directly to a syscall). -/
structure World where
  entries : List (List String × EntryKind)
  cwd : String
deriving DecidableEq, Repr

/-- First-match lookup in the entry list. -/
def findKind : List (List String × EntryKind) → List String → Option EntryKind
  | [], _ => none
  | e :: es, p => if e.1 = p then some e.2 else findKind es p

/-- Kind of the entry at an absolute component path; the filesystem
root `[]` always exists as a directory. -/
def World.kindAt (w : World) (p : List String) : Option EntryKind :=
  if p = [] then some EntryKind.dir else findKind w.entries p

/-- OS-level existence check (`Path::exists`). -/
def World.existsAt (w : World) (p : List String) : Bool :=
  (w.kindAt p).isSome

/-- Component-list `isPrefixOf`, used for subtree membership. -/
def isPre : List String → List String → Bool
  | [], _ => true
  | _ :: _, [] => false
  | a :: as, b :: bs => decide (a = b) && isPre as bs

/-- OS `remove_file` (unlink): removes a single file; a missing entry
or a directory is an OS error, surfaced as `IOError` through
`GameError::from`. -/
def removeFile (w : World) (p : List String) : GameResult Unit × World :=
  if w.kindAt p = some EntryKind.file then
    (Except.ok (), { w with entries := w.entries.filter (fun e => !decide (e.1 = p)) })
  else
    (Except.error (GameError.IOError "remove_file failed"), w)

/-- OS `remove_dir` (rmdir): removes an empty directory; a missing
entry, a file, a non-empty directory or the filesystem root is an OS
error, surfaced as `IOError`. -/
def removeDir (w : World) (p : List String) : GameResult Unit × World :=
  if p ≠ [] ∧ w.kindAt p = some EntryKind.dir ∧
      w.entries.all (fun e => !(isPre p e.1 && !decide (e.1 = p))) = true then
    (Except.ok (), { w with entries := w.entries.filter (fun e => !decide (e.1 = p)) })
  else
    (Except.error (GameError.IOError "remove_dir failed"), w)

/-- OS recursive directory removal (the `remove_dir_all` crate, which
on Unix has the semantics of `fs::remove_dir_all`): deletes a
directory and everything beneath it; a missing path or a non-directory
is an OS error, surfaced as `IOError`. -/
def removeDirAll (w : World) (p : List String) : GameResult Unit × World :=
  if w.kindAt p = some EntryKind.dir then
    (Except.ok (), { w with entries := w.entries.filter (fun e => !isPre p e.1) })
  else
    (Except.error (GameError.IOError "remove_dir_all failed"), w)

/-- The non-empty prefixes of a component path: the target directory
and all its ancestors below the filesystem root. -/
def nonemptyInits : List String → List (List String)
  | [] => []
  | x :: xs => [x] :: (nonemptyInits xs).map (fun l => x :: l)

/-- OS recursive directory creation (`fs::DirBuilder` with
`recursive(true)`): creates the directory and every missing ancestor;
succeeds when the directory already exists; an existing non-directory
entry on the path or one of its ancestors is an OS error, surfaced as
`IOError`. -/
def mkdirRec (w : World) (p : List String) : GameResult Unit × World :=
  if (nonemptyInits p).any (fun q => decide (findKind w.entries q = some EntryKind.file)) then
    (Except.error (GameError.IOError "mkdir failed"), w)
  else
    (Except.ok (),
      { w with entries :=
          (((nonemptyInits p).filter (fun q => decide (findKind w.entries q = none))).map
            (fun q => (q, EntryKind.dir))) ++ w.entries })

/-- OS `stat` (`Path::metadata`): the entry kind, or an OS error for a
missing entry, surfaced as `IOError`. Size and permission bits are OS
data outside this excerpt and are not modelled. -/
def stat (w : World) (p : List String) : GameResult EntryKind :=
  match w.kindAt p with
  | some k => Except.ok k
  | none => Except.error (GameError.IOError "stat failed")

/-- The immediate children of a directory, as listed by
`fs::read_dir`. -/
def childrenOf (w : World) (p : List String) : List (List String) :=
  (w.entries.filter (fun e => isPre p e.1 && decide (e.1.length = p.length + 1))).map
    (fun e => e.1)

/-- Outcome of a call that may abort the process instead of returning:
`unimplemented!()` diverges. -/
inductive CallOutcome (α : Type) where
  | returns (val : α)
  | diverges
deriving DecidableEq, Repr

/-- The OS resolution of a raw path string handed directly to a
syscall: an absolute string stands alone, a relative one is resolved
against the process current working directory, and the empty string
names no entry (the syscall fails with ENOENT). -/
def osTarget (w : World) (path : String) : Option (List String) :=
  if path = "" then none
  else if headIsSlash path.data then some (components path)
  else some (components w.cwd ++ components path)

namespace Blacksmith

/-- Modelled from the spec: `RootDir` is blacksmith_core's enumeration
of logical roots (the spec's `LogicalRoot`); the variant names are the
ones used by `src/blacksmith_subsystems/.../filesystem.rs`. -/
inductive RootDir where
  | UserConfigRoot
  | UserDataRoot
  | UserEngineConfigurationRoot
  | UserLogRoot
  | WorkingDirectory
  | UserSaveRoot
deriving DecidableEq, Repr

/-- The multi-root filesystem of
`src/blacksmith_subsystems/src/platforms/linux/filesystem.rs`: it
holds the resolved `GameDirectories` root paths (the resolution itself
is the external DirectoryResolver collaborator, out of scope per the
spec). -/
structure Filesystem where
  rootOf : RootDir → String

/-- Mirrors `Filesystem::get_root_directory`: the match over `RootDir`
selecting the corresponding `GameDirectories` path. -/
def get_root_directory (fs : Filesystem) (r : RootDir) : String :=
  fs.rootOf r

/-- Mirrors `Filesystem::get_absolute_path`: clone the root directory
and `push` the relative path onto it unless the path is empty. -/
def get_absolute_path (fs : Filesystem) (r : RootDir) (path : String) : String :=
  if path = "" then get_root_directory fs r
  else pushPath (get_root_directory fs r) path

/-- The component form of the resolved path, as the OS interprets it. -/
def absOf (fs : Filesystem) (r : RootDir) (path : String) : List String :=
  components (get_absolute_path fs r path)

/-- Modelled from the spec: `OpenOptions` (blacksmith_core) is a value
object describing read/write/append/create/truncate intent. -/
structure OpenOptions where
  readFlag : Bool
  writeFlag : Bool
  appendFlag : Bool
  createFlag : Bool
  truncateFlag : Bool
deriving DecidableEq, Repr

/-- Mirrors `open_with_options`: resolve, then open via the OS with
the given flags. File contents are outside the model; the OS outcome
is the entry-level behaviour of `fs::OpenOptions::open`. -/
def open_with_options (fs : Filesystem) (w : World) (r : RootDir) (path : String)
    (o : OpenOptions) : GameResult Unit × World :=
  let abs := absOf fs r path
  match w.kindAt abs with
  | some EntryKind.file => (Except.ok (), w)
  | some EntryKind.dir =>
    if o.writeFlag || o.appendFlag || o.truncateFlag then
      (Except.error (GameError.IOError "open failed"), w)
    else (Except.ok (), w)
  | none =>
    if o.createFlag && (o.writeFlag || o.appendFlag) then
      (Except.ok (), { w with entries := (abs, EntryKind.file) :: w.entries })
    else (Except.error (GameError.IOError "open failed"), w)

/-- Mirrors `mkdir`: recursive `DirBuilder::create` on the resolved
path, the error mapped through `GameError::from` to `IOError`. -/
def mkdir (fs : Filesystem) (w : World) (r : RootDir) (path : String) :
    GameResult Unit × World :=
  mkdirRec w (absOf fs r path)

/-- Mirrors `rm`. The source computes `absolute_path` and uses it for
the `is_dir` dispatch, but then passes the ORIGINAL `path` argument to
`fs::remove_dir` / `fs::remove_file`, so the OS resolves the removal
target against the process current working directory rather than the
resolved absolute path. -/
def rm (fs : Filesystem) (w : World) (r : RootDir) (path : String) :
    GameResult Unit × World :=
  let abs := absOf fs r path
  match osTarget w path with
  | none => (Except.error (GameError.IOError "remove failed"), w)
  | some tgt =>
    if w.kindAt abs = some EntryKind.dir then removeDir w tgt
    else removeFile w tgt

/-- Mirrors `exists`: resolved-path existence as a plain boolean. -/
def existsFs (fs : Filesystem) (w : World) (r : RootDir) (path : String) : Bool :=
  w.existsAt (absOf fs r path)

/-- Mirrors `rmrf`: if `exists(root_dir, path)` then
`remove_dir_all::remove_dir_all(absolute_path)` with the error mapped
through `GameError::from` to `IOError`, else `Ok(())`. -/
def rmrf (fs : Filesystem) (w : World) (r : RootDir) (path : String) :
    GameResult Unit × World :=
  if existsFs fs w r path then removeDirAll w (absOf fs r path)
  else (Except.ok (), w)

/-- Mirrors `metadata`: `Path::metadata` (stat) on the resolved path,
the error mapped through `GameError::from` to `IOError`. -/
def metadata (fs : Filesystem) (w : World) (r : RootDir) (path : String) :
    GameResult EntryKind × World :=
  (stat w (absOf fs r path), w)

/-- Mirrors `read_dir`: `FileSystemError` when the resolved path is
not a directory; otherwise the OS listing, whose own failure
(`osFail`, e.g. permission denied) is surfaced as `IOError`. -/
def read_dir (fs : Filesystem) (w : World) (osFail : Bool) (r : RootDir)
    (path : String) : GameResult (List (List String)) × World :=
  let absStr := get_absolute_path fs r path
  if w.kindAt (components absStr) = some EntryKind.dir then
    if osFail then
      (Except.error (GameError.IOError
        ("Could not read the content of the directory at path (" ++ absStr ++ ")")), w)
    else (Except.ok (childrenOf w (components absStr)), w)
  else
    (Except.error (GameError.FileSystemError
      ("the path (" ++ absStr ++ ") must be a directory !")), w)

/-- Mirrors `Filesystem::new`: after the external `GameDirectories`
resolution, eagerly create the engine-configuration, log and save
roots with `mkdir(root, "")`, propagating any error. -/
def new (fs : Filesystem) (w : World) : GameResult Filesystem × World :=
  match mkdir fs w RootDir.UserEngineConfigurationRoot "" with
  | (Except.error e, w1) => (Except.error e, w1)
  | (Except.ok _, w1) =>
    match mkdir fs w1 RootDir.UserLogRoot "" with
    | (Except.error e, w2) => (Except.error e, w2)
    | (Except.ok _, w2) =>
      match mkdir fs w2 RootDir.UserSaveRoot "" with
      | (Except.error e, w3) => (Except.error e, w3)
      | (Except.ok _, w3) => (Except.ok fs, w3)

/-- Mirrors `shut_down`: the body is `unimplemented!()`, an
unconditional panic, so the call never returns. -/
def shut_down (_fs : Filesystem) : CallOutcome (GameResult Unit) :=
  CallOutcome.diverges

/-- A filesystem instance paired with the OS world. Every operation
takes the instance by shared reference (`&self`, no interior
mutability), so an operation can produce a new world but never a new
instance; the wrappers below thread both to state that explicitly. -/
structure Machine where
  fs : Filesystem
  world : World

/-- `open_with_options` at the machine level. -/
def Machine.openM (m : Machine) (r : RootDir) (p : String) (o : OpenOptions) :
    GameResult Unit × Machine :=
  let res := open_with_options m.fs m.world r p o
  (res.1, { fs := m.fs, world := res.2 })

/-- `mkdir` at the machine level. -/
def Machine.mkdirM (m : Machine) (r : RootDir) (p : String) :
    GameResult Unit × Machine :=
  let res := mkdir m.fs m.world r p
  (res.1, { fs := m.fs, world := res.2 })

/-- `rm` at the machine level. -/
def Machine.rmM (m : Machine) (r : RootDir) (p : String) :
    GameResult Unit × Machine :=
  let res := rm m.fs m.world r p
  (res.1, { fs := m.fs, world := res.2 })

/-- `rmrf` at the machine level. -/
def Machine.rmrfM (m : Machine) (r : RootDir) (p : String) :
    GameResult Unit × Machine :=
  let res := rmrf m.fs m.world r p
  (res.1, { fs := m.fs, world := res.2 })

/-- `exists` at the machine level. -/
def Machine.existsM (m : Machine) (r : RootDir) (p : String) :
    Bool × Machine :=
  (existsFs m.fs m.world r p, m)

/-- `metadata` at the machine level. -/
def Machine.metadataM (m : Machine) (r : RootDir) (p : String) :
    GameResult EntryKind × Machine :=
  let res := metadata m.fs m.world r p
  (res.1, { fs := m.fs, world := res.2 })

/-- `read_dir` at the machine level. -/
def Machine.read_dirM (m : Machine) (osFail : Bool) (r : RootDir) (p : String) :
    GameResult (List (List String)) × Machine :=
  let res := read_dir m.fs m.world osFail r p
  (res.1, { fs := m.fs, world := res.2 })

end Blacksmith

namespace SrcFs

/-- The single-root filesystem of
`src/src/systems/platforms/linux/filesystem.rs`: the root is the
process current directory captured at construction. -/
structure Filesystem where
  root : String
deriving DecidableEq, Repr

/-- Mirrors `Filesystem::new`: capture `env::current_dir()`; `none`
models that OS call failing, which becomes an `IOError`. -/
def new (curDir : Option String) : GameResult Filesystem :=
  match curDir with
  | some p => Except.ok { root := p }
  | none => Except.error (GameError.IOError "Could not create the filesystem !")

/-- Mirrors `root_directory`. -/
def root_directory (fs : Filesystem) : String :=
  fs.root

/-- Mirrors `get_absolute`: `push` the given path onto a clone of the
root (even an empty path, which appends a trailing separator); always
returns `Ok`. -/
def get_absolute (fs : Filesystem) (path : String) : GameResult String :=
  Except.ok (pushPath (root_directory fs) path)

/-- The component form of the resolved path, as the OS interprets it. -/
def absOf (fs : Filesystem) (path : String) : List String :=
  components (pushPath (root_directory fs) path)

/-- Mirrors `mkdir`. -/
def mkdir (fs : Filesystem) (w : World) (path : String) : GameResult Unit × World :=
  mkdirRec w (absOf fs path)

/-- Mirrors `rm`: the same dispatch-on-absolute-path /
remove-the-raw-path mismatch as the Blacksmith variant. -/
def rm (fs : Filesystem) (w : World) (path : String) : GameResult Unit × World :=
  let abs := absOf fs path
  match osTarget w path with
  | none => (Except.error (GameError.IOError "remove failed"), w)
  | some tgt =>
    if w.kindAt abs = some EntryKind.dir then removeDir w tgt
    else removeFile w tgt

/-- Mirrors `rmrf`: requires the resolved path to be a directory,
otherwise `FileSystemError`; a `remove_dir_all` failure becomes
`IOError`. -/
def rmrf (fs : Filesystem) (w : World) (path : String) : GameResult Unit × World :=
  let absStr := pushPath (root_directory fs) path
  if w.kindAt (components absStr) = some EntryKind.dir then
    match removeDirAll w (components absStr) with
    | (Except.ok _, w') => (Except.ok (), w')
    | (Except.error _, w') =>
      (Except.error (GameError.IOError
        ("Error while deleting the directory (" ++ absStr ++ ")")), w')
  else
    (Except.error (GameError.FileSystemError
      ("(" ++ absStr ++ ") is not a directory !, use rm instead if you want to delete a file.")), w)

/-- Mirrors `exists`: `false` if resolution failed (`get_absolute`
never fails), else OS existence of the resolved path. -/
def existsFs (fs : Filesystem) (w : World) (path : String) : Bool :=
  match get_absolute fs path with
  | Except.ok p => w.existsAt (components p)
  | Except.error _ => false

/-- Mirrors `metadata`. -/
def metadata (fs : Filesystem) (w : World) (path : String) :
    GameResult EntryKind × World :=
  (stat w (absOf fs path), w)

/-- Mirrors `read_dir`: same branch structure as the Blacksmith
variant. -/
def read_dir (fs : Filesystem) (w : World) (osFail : Bool) (path : String) :
    GameResult (List (List String)) × World :=
  let absStr := pushPath (root_directory fs) path
  if w.kindAt (components absStr) = some EntryKind.dir then
    if osFail then
      (Except.error (GameError.IOError
        ("Could not read the content of the directory at path (" ++ absStr ++ ")")), w)
    else (Except.ok (childrenOf w (components absStr)), w)
  else
    (Except.error (GameError.FileSystemError
      ("the path (" ++ absStr ++ ") must be a directory !")), w)

/-- Mirrors `shut_down`: the body is `unimplemented!()`, an
unconditional panic, so the call never returns. -/
def shut_down (_fs : Filesystem) : CallOutcome (GameResult Unit) :=
  CallOutcome.diverges

end SrcFs

/-- Whether a `GameResult` is a success. -/
def isOkResult {α : Type} : GameResult α → Bool
  | Except.ok _ => true
  | Except.error _ => false

/-- A concrete Blacksmith instance used by concrete-input theorems:
the resolved root directories of a typical installation. -/
def sampleFs : Blacksmith.Filesystem :=
  ⟨fun r => match r with
    | Blacksmith.RootDir.UserConfigRoot => "/cfg/user"
    | Blacksmith.RootDir.UserDataRoot => "/data"
    | Blacksmith.RootDir.UserEngineConfigurationRoot => "/cfg/engine"
    | Blacksmith.RootDir.UserLogRoot => "/logs"
    | Blacksmith.RootDir.WorkingDirectory => "/proj"
    | Blacksmith.RootDir.UserSaveRoot => "/saves"⟩

/-- A concrete src-variant instance rooted at the process current
directory `/proj`. -/
def sampleSrc : SrcFs.Filesystem :=
  ⟨"/proj"⟩

/-- A concrete world: a log file under the log root and an unrelated
file of the same relative name under the working directory, which is
also the process current directory. -/
def sampleWorld : World :=
  ⟨[(["logs", "f.txt"], EntryKind.file), (["proj", "f.txt"], EntryKind.file)], "/proj"⟩

/-- A concrete world with no entries. -/
def emptyWorld : World :=
  ⟨[], "/proj"⟩

theorem isPre_refl (l : List String) : isPre l l = true := by
  induction l with
  | nil => rfl
  | cons a as ih => simp [isPre, ih]

theorem findKind_filter_not_isPre (es : List (List String × EntryKind)) (p : List String) :
    findKind (es.filter (fun e => !isPre p e.1)) p = none := by
  induction es with
  | nil => rfl
  | cons e es ih =>
    by_cases h : isPre p e.1 = true
    · simp only [List.filter_cons, h, Bool.not_true, Bool.false_eq_true, if_false]
      exact ih
    · have hne : e.1 ≠ p := by
        intro hc
        rw [hc] at h
        exact h (isPre_refl p)
      simp only [List.filter_cons, Bool.not_eq_true'] at *
      rw [if_pos (by simp [Bool.not_eq_true] at h; rw [h])]
      simp only [findKind, if_neg hne]
      exact ih

theorem findKind_append_some {a : List (List String × EntryKind)}
    (b : List (List String × EntryKind)) {q : List String} {v : EntryKind}
    (h : findKind a q = some v) : findKind (a ++ b) q = some v := by
  induction a with
  | nil => simp [findKind] at h
  | cons e es ih =>
    by_cases he : e.1 = q
    · simp only [findKind, if_pos he] at h
      simp only [List.cons_append, findKind, if_pos he]
      exact h
    · simp only [findKind, if_neg he] at h
      simp only [List.cons_append, findKind, if_neg he]
      exact ih h

theorem findKind_append_none {a : List (List String × EntryKind)}
    (b : List (List String × EntryKind)) {q : List String}
    (h : findKind a q = none) : findKind (a ++ b) q = findKind b q := by
  induction a with
  | nil => simp
  | cons e es ih =>
    by_cases he : e.1 = q
    · simp [findKind, if_pos he] at h
    · simp only [findKind, if_neg he] at h
      simp only [List.cons_append, findKind, if_neg he]
      exact ih h

theorem findKind_map_dir_mem {ks : List (List String)} {q : List String}
    (h : q ∈ ks) :
    findKind (ks.map (fun k => (k, EntryKind.dir))) q = some EntryKind.dir := by
  induction ks with
  | nil => cases h
  | cons k ks ih =>
    by_cases he : k = q
    · simp [findKind, he]
    · rcases List.mem_cons.mp h with h1 | h2
      · exact absurd h1.symm he
      · simp only [List.map_cons, findKind, if_neg he]
        exact ih h2

theorem findKind_map_dir_not_mem {ks : List (List String)} {q : List String}
    (h : q ∉ ks) :
    findKind (ks.map (fun k => (k, EntryKind.dir))) q = none := by
  induction ks with
  | nil => rfl
  | cons k ks ih =>
    have hne : k ≠ q := fun hc => h (hc ▸ List.mem_cons_self k ks)
    simp only [List.map_cons, findKind, if_neg hne]
    exact ih (fun hc => h (List.mem_cons_of_mem k hc))

theorem mem_nonemptyInits_ne_nil {p q : List String}
    (h : q ∈ nonemptyInits p) : q ≠ [] := by
  induction p generalizing q with
  | nil => cases h
  | cons x xs ih =>
    rcases List.mem_cons.mp h with h1 | h2
    · rw [h1]; simp
    · rcases List.mem_map.mp h2 with ⟨l, _, rfl⟩
      simp

theorem self_mem_nonemptyInits {p : List String} (h : p ≠ []) :
    p ∈ nonemptyInits p := by
  induction p with
  | nil => exact absurd rfl h
  | cons x xs ih =>
    by_cases hxs : xs = []
    · subst hxs; simp [nonemptyInits]
    · exact List.mem_cons_of_mem _ (List.mem_map.mpr ⟨xs, ih hxs, rfl⟩)

theorem mkdirRec_ok_iff (w : World) (p : List String) :
    (mkdirRec w p).1 = Except.ok () ↔
      ∀ q ∈ nonemptyInits p, findKind w.entries q ≠ some EntryKind.file := by
  unfold mkdirRec
  by_cases h : (nonemptyInits p).any
      (fun q => decide (findKind w.entries q = some EntryKind.file)) = true
  · rw [if_pos h]
    simp only [List.any_eq_true, decide_eq_true_eq] at h
    obtain ⟨q, hq, hf⟩ := h
    constructor
    · intro hc; simp at hc
    · intro hall; exact absurd hf (hall q hq)
  · rw [if_neg h]
    simp only [List.any_eq_true, decide_eq_true_eq, not_exists] at h
    constructor
    · intro _ q hq hf
      exact (h q) ⟨hq, hf⟩
    · intro _; rfl

theorem mkdirRec_any_false (w : World) (p : List String)
    (h : ∀ q ∈ nonemptyInits p, findKind w.entries q ≠ some EntryKind.file) :
    ((nonemptyInits p).any
      (fun q => decide (findKind w.entries q = some EntryKind.file))) = false := by
  rw [List.any_eq_false]
  intro x hx
  simp only [decide_eq_true_eq]
  exact h x hx

theorem mkdirRec_post (w : World) (p : List String)
    (h : ∀ q ∈ nonemptyInits p, findKind w.entries q ≠ some EntryKind.file) :
    ∀ q ∈ nonemptyInits p, ((mkdirRec w p).2).kindAt q = some EntryKind.dir := by
  intro q hq
  have hany := mkdirRec_any_false w p h
  unfold mkdirRec
  rw [hany]
  simp only [Bool.false_eq_true, if_false]
  unfold World.kindAt
  rw [if_neg (mem_nonemptyInits_ne_nil hq)]
  dsimp only
  by_cases hf : findKind w.entries q = none
  · have hmem : q ∈ (nonemptyInits p).filter
        (fun q => decide (findKind w.entries q = none)) :=
      List.mem_filter.mpr ⟨hq, by simp [hf]⟩
    exact findKind_append_some _ (findKind_map_dir_mem hmem)
  · obtain ⟨k, hk⟩ := Option.ne_none_iff_exists'.mp hf
    have hkd : k = EntryKind.dir := by
      cases k
      · exact absurd hk (h q hq)
      · rfl
    subst hkd
    have hnot : q ∉ (nonemptyInits p).filter
        (fun q => decide (findKind w.entries q = none)) := by
      intro hc
      have h2 := (List.mem_filter.mp hc).2
      rw [hk] at h2
      simp at h2
    rw [findKind_append_none _ (findKind_map_dir_not_mem hnot)]
    exact hk

theorem mkdirRec_preserve (w : World) (p q : List String) (k : EntryKind)
    (h : w.kindAt q = some k) : ((mkdirRec w p).2).kindAt q = some k := by
  unfold mkdirRec
  split
  · exact h
  · unfold World.kindAt at h ⊢
    by_cases hq : q = []
    · rw [if_pos hq] at h ⊢
      exact h
    · rw [if_neg hq] at h ⊢
      dsimp only
      have hnot : q ∉ (nonemptyInits p).filter
          (fun q => decide (findKind w.entries q = none)) := by
        intro hc
        have h2 := (List.mem_filter.mp hc).2
        rw [h] at h2
        simp at h2
      rw [findKind_append_none _ (findKind_map_dir_not_mem hnot)]
      exact h

theorem mkdirRec_world_unchanged (w : World) (p : List String)
    (h : ∀ q ∈ nonemptyInits p, findKind w.entries q ≠ none) :
    (mkdirRec w p).2 = w := by
  unfold mkdirRec
  split
  · rfl
  · have hfil : (nonemptyInits p).filter
        (fun q => decide (findKind w.entries q = none)) = [] := by
      rw [List.filter_eq_nil_iff]
      intro a ha
      simp only [decide_eq_true_eq]
      exact h a ha
    simp [hfil]

theorem mkdirRec_ok_target (w : World) (p : List String)
    (h : (mkdirRec w p).1 = Except.ok ()) :
    ((mkdirRec w p).2).kindAt p = some EntryKind.dir := by
  by_cases hp : p = []
  · subst hp
    simp [World.kindAt]
  · exact mkdirRec_post w p ((mkdirRec_ok_iff w p).mp h) p (self_mem_nonemptyInits hp)

/-- Claim C8: invoking shut_down always signals an unconditional fatal
failure: in both adapter variants the body is `unimplemented!()`, so
for every filesystem instance the call diverges and in particular
never returns a success value. -/
theorem C8_shut_down_never_succeeds :
    (∀ fs : Blacksmith.Filesystem, ∀ res : GameResult Unit,
      Blacksmith.shut_down fs ≠ CallOutcome.returns res) ∧
    (∀ fs : SrcFs.Filesystem, ∀ res : GameResult Unit,
      SrcFs.shut_down fs ≠ CallOutcome.returns res) := by
  constructor
  · intro fs res h
    simp [Blacksmith.shut_down] at h
  · intro fs res h
    simp [SrcFs.shut_down] at h

/-- Claim C9: the mapping from logical roots to directory paths is
fixed at construction: every operation takes the instance by shared
reference, so the machine after any of the seven operations carries
the same instance, and `get_root_directory` answers the same path for
every root before and after each call. -/
theorem C9_root_mapping_immutable :
    ∀ (m : Blacksmith.Machine) (r : Blacksmith.RootDir) (p : String)
      (o : Blacksmith.OpenOptions) (osFail : Bool) (r' : Blacksmith.RootDir),
      (m.openM r p o).2.fs = m.fs ∧
      (m.mkdirM r p).2.fs = m.fs ∧
      (m.rmM r p).2.fs = m.fs ∧
      (m.rmrfM r p).2.fs = m.fs ∧
      (m.existsM r p).2.fs = m.fs ∧
      (m.metadataM r p).2.fs = m.fs ∧
      (m.read_dirM osFail r p).2.fs = m.fs ∧
      Blacksmith.get_root_directory ((m.mkdirM r p).2.fs) r' =
        Blacksmith.get_root_directory m.fs r' := by
  intro m r p o osFail r'
  exact ⟨rfl, rfl, rfl, rfl, rfl, rfl, rfl, rfl⟩

/-- Claim C5: exists returns a plain boolean and never returns or
propagates an error: in both variants it equals the OS existence check
of the resolved path, and any absent (hence inaccessible) resolved
entry is reported as false. -/
theorem C5_exists_total_boolean :
    ∀ (fs : Blacksmith.Filesystem) (w : World) (r : Blacksmith.RootDir)
      (p : String) (fsS : SrcFs.Filesystem),
      Blacksmith.existsFs fs w r p = w.existsAt (Blacksmith.absOf fs r p) ∧
      SrcFs.existsFs fsS w p = w.existsAt (SrcFs.absOf fsS p) ∧
      (w.kindAt (Blacksmith.absOf fs r p) = none →
        Blacksmith.existsFs fs w r p = false) ∧
      (w.kindAt (SrcFs.absOf fsS p) = none →
        SrcFs.existsFs fsS w p = false) := by
  intro fs w r p fsS
  refine ⟨rfl, rfl, ?_, ?_⟩
  · intro h
    unfold Blacksmith.existsFs World.existsAt
    rw [h]
    rfl
  · intro h
    unfold SrcFs.existsFs SrcFs.get_absolute World.existsAt
    dsimp only
    rw [show components (pushPath (SrcFs.root_directory fsS) p) = SrcFs.absOf fsS p from rfl, h]
    rfl

/-- Claim C5 witness: at a concrete missing path both variants report
false. -/
theorem C5_exists_total_boolean_witness :
    Blacksmith.existsFs sampleFs sampleWorld Blacksmith.RootDir.UserSaveRoot
      "missing.txt" = false ∧
    SrcFs.existsFs sampleSrc sampleWorld "missing.txt" = false :=
  ⟨(C5_exists_total_boolean sampleFs sampleWorld Blacksmith.RootDir.UserSaveRoot
      "missing.txt" sampleSrc).2.2.1 (by decide),
   (C5_exists_total_boolean sampleFs sampleWorld Blacksmith.RootDir.UserSaveRoot
      "missing.txt" sampleSrc).2.2.2 (by decide)⟩

/-- Claim C3: for every root and relative path, the resolved absolute
path is the root's directory joined with the relative path, and for
the empty relative path it is the root directory itself. Equality of
paths is Rust `Path` equality, i.e. equality of the component lists
(the src variant's resolved string carries a trailing separator for
the empty path, which is the same path by component equality). -/
theorem C3_path_resolution :
    ∀ (fs : Blacksmith.Filesystem) (r : Blacksmith.RootDir) (p : String)
      (fsS : SrcFs.Filesystem),
      headIsSlash p.data = false →
      components (Blacksmith.get_absolute_path fs r p) =
        components (Blacksmith.get_root_directory fs r) ++ components p ∧
      (p = "" → components (Blacksmith.get_absolute_path fs r p) =
        components (Blacksmith.get_root_directory fs r)) ∧
      ∃ q, SrcFs.get_absolute fsS p = Except.ok q ∧
        components q = components (SrcFs.root_directory fsS) ++ components p ∧
        (p = "" → components q = components (SrcFs.root_directory fsS)) := by
  intro fs r p fsS hrel
  refine ⟨?_, ?_, pushPath (SrcFs.root_directory fsS) p, rfl, ?_, ?_⟩
  · unfold Blacksmith.get_absolute_path
    by_cases hp : p = ""
    · rw [if_pos hp, hp, components_empty, List.append_nil]
    · rw [if_neg hp, components_pushPath _ _ hrel]
  · intro hp
    subst hp
    unfold Blacksmith.get_absolute_path
    rw [if_pos rfl]
  · exact components_pushPath _ _ hrel
  · intro hp
    subst hp
    rw [components_pushPath _ _ hrel, components_empty, List.append_nil]

/-- Claim C3 witness: concrete resolution for a non-empty and for the
empty relative path. -/
theorem C3_path_resolution_witness :
    components (Blacksmith.get_absolute_path sampleFs
        Blacksmith.RootDir.UserSaveRoot "slots/a.sav") =
      components (Blacksmith.get_root_directory sampleFs
        Blacksmith.RootDir.UserSaveRoot) ++ components "slots/a.sav" ∧
    (∃ q, SrcFs.get_absolute sampleSrc "" = Except.ok q ∧
      components q = components (SrcFs.root_directory sampleSrc) ++ components "" ∧
      ("" = "" → components q = components (SrcFs.root_directory sampleSrc))) :=
  ⟨(C3_path_resolution sampleFs Blacksmith.RootDir.UserSaveRoot "slots/a.sav"
      sampleSrc (by decide)).1,
   (C3_path_resolution sampleFs Blacksmith.RootDir.UserSaveRoot ""
      sampleSrc (by decide)).2.2⟩

/-- Claim C1 (code bug): rm computes the resolved absolute path and
uses it for the directory dispatch, but then hands the ORIGINAL
relative path to `fs::remove_dir` / `fs::remove_file`, which the OS
resolves against the process current working directory. At this
concrete input (`rm(UserLogRoot, "f.txt")` with a file at the resolved
path `/logs/f.txt` and an unrelated file at `/proj/f.txt`, cwd
`/proj`) the call reports success, the entry at the resolved absolute
path survives, and the unrelated working-directory entry is removed
instead — contradicting the claim that exactly the entry at the
resolved path is removed and no other. -/
theorem C1_rm_removes_wrong_entry :
    (Blacksmith.rm sampleFs sampleWorld Blacksmith.RootDir.UserLogRoot
        "f.txt").1 = Except.ok () ∧
    ((Blacksmith.rm sampleFs sampleWorld Blacksmith.RootDir.UserLogRoot
        "f.txt").2).kindAt ["logs", "f.txt"] = some EntryKind.file ∧
    ((Blacksmith.rm sampleFs sampleWorld Blacksmith.RootDir.UserLogRoot
        "f.txt").2).kindAt ["proj", "f.txt"] = none := by
  refine ⟨rfl, by decide, by decide⟩

/-- Claim C2 counterexample: with a FILE at the resolved path the
Blacksmith rmrf fails (`remove_dir_all` on a file is an OS error) on
the first AND on the second call, and exists still reports true after
the first — so "calling rmrf twice in succession never fails the
second call, and exists returns false after either call" is false as
stated. In the src variant even the first part fails: rmrf on a
non-existent resolved path returns a FileSystemError instead of
succeeding as a no-op. -/
theorem C2_counterexample :
    (Blacksmith.rmrf sampleFs sampleWorld Blacksmith.RootDir.UserLogRoot
        "f.txt").1 = Except.error (GameError.IOError "remove_dir_all failed") ∧
    (Blacksmith.rmrf sampleFs
        (Blacksmith.rmrf sampleFs sampleWorld Blacksmith.RootDir.UserLogRoot
          "f.txt").2 Blacksmith.RootDir.UserLogRoot "f.txt").1 =
      Except.error (GameError.IOError "remove_dir_all failed") ∧
    Blacksmith.existsFs sampleFs
        (Blacksmith.rmrf sampleFs sampleWorld Blacksmith.RootDir.UserLogRoot
          "f.txt").2 Blacksmith.RootDir.UserLogRoot "f.txt" = true ∧
    (SrcFs.rmrf sampleSrc sampleWorld "missing_dir").1 =
      Except.error (GameError.FileSystemError
        "(/proj/missing_dir) is not a directory !, use rm instead if you want to delete a file.") := by
  refine ⟨rfl, rfl, by decide, rfl⟩

/-- Claim C2 (amended): in the Blacksmith variant, rmrf on a
non-existent resolved path succeeds without performing any removal;
and whenever the resolved path is not an existing FILE (i.e. it is
absent or a directory) and is not the filesystem root itself, calling
rmrf twice never fails the second call and exists returns false after
the first call. The src variant instead fails with a FileSystemError
whenever the resolved path is not an existing directory — in
particular when it does not exist. -/
theorem C2_rmrf_noop_and_idempotent :
    ∀ (fs : Blacksmith.Filesystem) (w : World) (r : Blacksmith.RootDir)
      (p : String),
      (w.kindAt (Blacksmith.absOf fs r p) = none →
        Blacksmith.rmrf fs w r p = (Except.ok (), w)) ∧
      (w.kindAt (Blacksmith.absOf fs r p) ≠ some EntryKind.file →
        Blacksmith.absOf fs r p ≠ [] →
        (Blacksmith.rmrf fs (Blacksmith.rmrf fs w r p).2 r p).1 =
          Except.ok () ∧
        Blacksmith.existsFs fs (Blacksmith.rmrf fs w r p).2 r p = false) ∧
      (∀ (fsS : SrcFs.Filesystem) (pS : String),
        w.kindAt (SrcFs.absOf fsS pS) = none →
        (SrcFs.rmrf fsS w pS).1 = Except.error (GameError.FileSystemError
          ("(" ++ pushPath (SrcFs.root_directory fsS) pS ++
            ") is not a directory !, use rm instead if you want to delete a file."))) := by
  intro fs w r p
  refine ⟨?_, ?_, ?_⟩
  · intro h
    unfold Blacksmith.rmrf Blacksmith.existsFs World.existsAt
    rw [h]
    simp
  · intro hnf hnr
    cases hk : w.kindAt (Blacksmith.absOf fs r p) with
    | none =>
      have h1 : Blacksmith.rmrf fs w r p = (Except.ok (), w) := by
        unfold Blacksmith.rmrf Blacksmith.existsFs World.existsAt
        rw [hk]
        simp
      rw [h1]
      constructor
      · show (Blacksmith.rmrf fs w r p).1 = Except.ok ()
        rw [h1]
      · unfold Blacksmith.existsFs World.existsAt
        rw [hk]
        rfl
    | some k =>
      cases k with
      | file => exact absurd hk hnf
      | dir =>
        have h1 : Blacksmith.rmrf fs w r p = (Except.ok (), { w with entries := w.entries.filter (fun e => !isPre (Blacksmith.absOf fs r p) e.1) }) := by
          unfold Blacksmith.rmrf Blacksmith.existsFs World.existsAt
          rw [hk]
          unfold removeDirAll
          rw [hk]
          simp
        have h2 : ((Blacksmith.rmrf fs w r p).2).kindAt
            (Blacksmith.absOf fs r p) = none := by
          rw [h1]
          unfold World.kindAt
          rw [if_neg hnr]
          exact findKind_filter_not_isPre _ _
        constructor
        · generalize hgen : (Blacksmith.rmrf fs w r p).2 = w' at h2
          unfold Blacksmith.rmrf Blacksmith.existsFs World.existsAt
          rw [h2]
          simp
        · unfold Blacksmith.existsFs World.existsAt
          rw [h2]
          rfl
  · intro fsS pS h
    have hnd : w.kindAt (components (pushPath (SrcFs.root_directory fsS) pS)) ≠
        some EntryKind.dir := by
      rw [show components (pushPath (SrcFs.root_directory fsS) pS) =
        SrcFs.absOf fsS pS from rfl, h]
      simp
    unfold SrcFs.rmrf
    rw [if_neg hnd]

/-- Claim C2 witness: at a concrete directory with contents, rmrf
succeeds, the second call succeeds too, and exists reports false
afterwards; and the src-variant clause at a concrete missing path. -/
theorem C2_rmrf_noop_and_idempotent_witness :
    ((Blacksmith.rmrf sampleFs
        (Blacksmith.rmrf sampleFs sampleWorld Blacksmith.RootDir.UserLogRoot "").2
        Blacksmith.RootDir.UserLogRoot "").1 = Except.ok () ∧
      Blacksmith.existsFs sampleFs
        (Blacksmith.rmrf sampleFs sampleWorld Blacksmith.RootDir.UserLogRoot "").2
        Blacksmith.RootDir.UserLogRoot "" = false) ∧
    (SrcFs.rmrf sampleSrc sampleWorld "missing_dir").1 =
      Except.error (GameError.FileSystemError
        ("(" ++ pushPath (SrcFs.root_directory sampleSrc) "missing_dir" ++
          ") is not a directory !, use rm instead if you want to delete a file.")) :=
  ⟨(C2_rmrf_noop_and_idempotent sampleFs sampleWorld
      Blacksmith.RootDir.UserLogRoot "").2.1 (by decide) (by decide),
   (C2_rmrf_noop_and_idempotent sampleFs sampleWorld
      Blacksmith.RootDir.UserLogRoot "").2.2 sampleSrc "missing_dir" (by decide)⟩

/-- Claim C4: read_dir on a resolved path that exists but is not a
directory fails with a FileSystemError (with the "must be a directory"
message) and never with an IOError; an IOError can only arise when the
resolved path IS a directory and the underlying OS listing call itself
errors (`osFail`). Both adapter variants. -/
theorem C4_read_dir_error_kinds :
    ∀ (fs : Blacksmith.Filesystem) (w : World) (osFail : Bool)
      (r : Blacksmith.RootDir) (p : String) (fsS : SrcFs.Filesystem),
      (w.kindAt (Blacksmith.absOf fs r p) = some EntryKind.file →
        (Blacksmith.read_dir fs w osFail r p).1 =
          Except.error (GameError.FileSystemError
            ("the path (" ++ Blacksmith.get_absolute_path fs r p ++
              ") must be a directory !"))) ∧
      (∀ msg, (Blacksmith.read_dir fs w osFail r p).1 =
          Except.error (GameError.IOError msg) →
        osFail = true ∧
        w.kindAt (Blacksmith.absOf fs r p) = some EntryKind.dir) ∧
      (w.kindAt (SrcFs.absOf fsS p) = some EntryKind.file →
        (SrcFs.read_dir fsS w osFail p).1 =
          Except.error (GameError.FileSystemError
            ("the path (" ++ pushPath (SrcFs.root_directory fsS) p ++
              ") must be a directory !"))) ∧
      (∀ msg, (SrcFs.read_dir fsS w osFail p).1 =
          Except.error (GameError.IOError msg) →
        osFail = true ∧ w.kindAt (SrcFs.absOf fsS p) = some EntryKind.dir) := by
  intro fs w osFail r p fsS
  refine ⟨?_, ?_, ?_, ?_⟩
  · intro hfile
    have hnd : w.kindAt (components (Blacksmith.get_absolute_path fs r p)) ≠
        some EntryKind.dir := by
      rw [show components (Blacksmith.get_absolute_path fs r p) =
        Blacksmith.absOf fs r p from rfl, hfile]
      simp
    simp only [Blacksmith.read_dir]
    rw [if_neg hnd]
  · intro msg h
    simp only [Blacksmith.read_dir] at h
    by_cases hc : w.kindAt (components (Blacksmith.get_absolute_path fs r p)) =
        some EntryKind.dir
    · rw [if_pos hc] at h
      cases osFail with
      | true => exact ⟨rfl, hc⟩
      | false => simp at h
    · rw [if_neg hc] at h
      simp at h
  · intro hfile
    have hnd : w.kindAt (components (pushPath (SrcFs.root_directory fsS) p)) ≠
        some EntryKind.dir := by
      rw [show components (pushPath (SrcFs.root_directory fsS) p) =
        SrcFs.absOf fsS p from rfl, hfile]
      simp
    simp only [SrcFs.read_dir]
    rw [if_neg hnd]
  · intro msg h
    simp only [SrcFs.read_dir] at h
    by_cases hc : w.kindAt (components (pushPath (SrcFs.root_directory fsS) p)) =
        some EntryKind.dir
    · rw [if_pos hc] at h
      cases osFail with
      | true => exact ⟨rfl, hc⟩
      | false => simp at h
    · rw [if_neg hc] at h
      simp at h

/-- Claim C4 witness: read_dir on a concrete file path yields the
FileSystemError in both variants. -/
theorem C4_read_dir_error_kinds_witness :
    (Blacksmith.read_dir sampleFs sampleWorld false
        Blacksmith.RootDir.UserLogRoot "f.txt").1 =
      Except.error (GameError.FileSystemError
        ("the path (" ++ Blacksmith.get_absolute_path sampleFs
          Blacksmith.RootDir.UserLogRoot "f.txt" ++ ") must be a directory !")) ∧
    (SrcFs.read_dir sampleSrc sampleWorld false "f.txt").1 =
      Except.error (GameError.FileSystemError
        ("the path (" ++ pushPath (SrcFs.root_directory sampleSrc) "f.txt" ++
          ") must be a directory !")) :=
  ⟨(C4_read_dir_error_kinds sampleFs sampleWorld false
      Blacksmith.RootDir.UserLogRoot "f.txt" sampleSrc).1 (by decide),
   (C4_read_dir_error_kinds sampleFs sampleWorld false
      Blacksmith.RootDir.UserLogRoot "f.txt" sampleSrc).2.2.1 (by decide)⟩

/-- Claim C10: on a resolved path that does not exist at all, read_dir
fails with the not-a-directory FileSystemError while metadata fails
with an IOError (the stat failure mapped through `GameError::from`):
the same missing entry is reported under two different error kinds.
Both adapter variants. -/
theorem C10_missing_path_error_split :
    ∀ (fs : Blacksmith.Filesystem) (w : World) (osFail : Bool)
      (r : Blacksmith.RootDir) (p : String) (fsS : SrcFs.Filesystem),
      (w.kindAt (Blacksmith.absOf fs r p) = none →
        (Blacksmith.read_dir fs w osFail r p).1 =
          Except.error (GameError.FileSystemError
            ("the path (" ++ Blacksmith.get_absolute_path fs r p ++
              ") must be a directory !")) ∧
        (Blacksmith.metadata fs w r p).1 =
          Except.error (GameError.IOError "stat failed")) ∧
      (w.kindAt (SrcFs.absOf fsS p) = none →
        (SrcFs.read_dir fsS w osFail p).1 =
          Except.error (GameError.FileSystemError
            ("the path (" ++ pushPath (SrcFs.root_directory fsS) p ++
              ") must be a directory !")) ∧
        (SrcFs.metadata fsS w p).1 =
          Except.error (GameError.IOError "stat failed")) := by
  intro fs w osFail r p fsS
  constructor
  · intro h
    constructor
    · have hnd : w.kindAt (components (Blacksmith.get_absolute_path fs r p)) ≠
          some EntryKind.dir := by
        rw [show components (Blacksmith.get_absolute_path fs r p) =
          Blacksmith.absOf fs r p from rfl, h]
        simp
      simp only [Blacksmith.read_dir]
      rw [if_neg hnd]
    · simp only [Blacksmith.metadata, stat]
      rw [h]
  · intro h
    constructor
    · have hnd : w.kindAt (components (pushPath (SrcFs.root_directory fsS) p)) ≠
          some EntryKind.dir := by
        rw [show components (pushPath (SrcFs.root_directory fsS) p) =
          SrcFs.absOf fsS p from rfl, h]
        simp
      simp only [SrcFs.read_dir]
      rw [if_neg hnd]
    · simp only [SrcFs.metadata, stat]
      rw [h]

/-- Claim C10 witness: a concrete missing path yields the two
different error kinds in both variants. -/
theorem C10_missing_path_error_split_witness :
    ((Blacksmith.read_dir sampleFs sampleWorld false
        Blacksmith.RootDir.UserSaveRoot "nope").1 =
      Except.error (GameError.FileSystemError
        ("the path (" ++ Blacksmith.get_absolute_path sampleFs
          Blacksmith.RootDir.UserSaveRoot "nope" ++ ") must be a directory !")) ∧
    (Blacksmith.metadata sampleFs sampleWorld
        Blacksmith.RootDir.UserSaveRoot "nope").1 =
      Except.error (GameError.IOError "stat failed")) ∧
    ((SrcFs.read_dir sampleSrc sampleWorld false "nope").1 =
      Except.error (GameError.FileSystemError
        ("the path (" ++ pushPath (SrcFs.root_directory sampleSrc) "nope" ++
          ") must be a directory !")) ∧
    (SrcFs.metadata sampleSrc sampleWorld "nope").1 =
      Except.error (GameError.IOError "stat failed")) :=
  ⟨(C10_missing_path_error_split sampleFs sampleWorld false
      Blacksmith.RootDir.UserSaveRoot "nope" sampleSrc).1 (by decide),
   (C10_missing_path_error_split sampleFs sampleWorld false
      Blacksmith.RootDir.UserSaveRoot "nope" sampleSrc).2 (by decide)⟩

/-- Claim C7: mkdir creates the target directory and all missing
ancestor directories, succeeds and changes nothing when the directory
(and its ancestors) already exist, and fails with an IOError on a path
conflict, i.e. when an existing non-directory entry occupies the
target path or one of its ancestors. (Permission errors are OS state
outside this excerpt; the path-conflict case is the modelled IOError
source.) -/
theorem C7_mkdir_recursive_idempotent :
    ∀ (fs : Blacksmith.Filesystem) (w : World) (r : Blacksmith.RootDir)
      (p : String),
      ((∀ q ∈ nonemptyInits (Blacksmith.absOf fs r p),
          findKind w.entries q ≠ some EntryKind.file) →
        (Blacksmith.mkdir fs w r p).1 = Except.ok () ∧
        ((Blacksmith.mkdir fs w r p).2).kindAt (Blacksmith.absOf fs r p) =
          some EntryKind.dir ∧
        (∀ q ∈ nonemptyInits (Blacksmith.absOf fs r p),
          ((Blacksmith.mkdir fs w r p).2).kindAt q = some EntryKind.dir)) ∧
      ((∀ q ∈ nonemptyInits (Blacksmith.absOf fs r p),
          findKind w.entries q = some EntryKind.dir) →
        (Blacksmith.mkdir fs w r p).1 = Except.ok () ∧
        (Blacksmith.mkdir fs w r p).2 = w) ∧
      ((∃ q ∈ nonemptyInits (Blacksmith.absOf fs r p),
          findKind w.entries q = some EntryKind.file) →
        (Blacksmith.mkdir fs w r p).1 =
          Except.error (GameError.IOError "mkdir failed") ∧
        (Blacksmith.mkdir fs w r p).2 = w) := by
  intro fs w r p
  refine ⟨?_, ?_, ?_⟩
  · intro h
    have hok : (mkdirRec w (Blacksmith.absOf fs r p)).1 = Except.ok () :=
      (mkdirRec_ok_iff w _).mpr h
    exact ⟨hok, mkdirRec_ok_target w _ hok, mkdirRec_post w _ h⟩
  · intro h
    have h' : ∀ q ∈ nonemptyInits (Blacksmith.absOf fs r p),
        findKind w.entries q ≠ some EntryKind.file := by
      intro q hq hc
      rw [h q hq] at hc
      simp at hc
    refine ⟨(mkdirRec_ok_iff w _).mpr h', mkdirRec_world_unchanged w _ ?_⟩
    intro q hq hc
    rw [h q hq] at hc
    exact Option.noConfusion hc
  · rintro ⟨q, hq, hf⟩
    have hany : (nonemptyInits (Blacksmith.absOf fs r p)).any
        (fun q => decide (findKind w.entries q = some EntryKind.file)) = true := by
      simp only [List.any_eq_true, decide_eq_true_eq]
      exact ⟨q, hq, hf⟩
    unfold Blacksmith.mkdir mkdirRec
    rw [hany]
    simp

/-- Claim C7 witness: a concrete mkdir on an empty world succeeds and
the target directory exists afterwards. -/
theorem C7_mkdir_recursive_idempotent_witness :
    (Blacksmith.mkdir sampleFs emptyWorld
        Blacksmith.RootDir.WorkingDirectory "dir_test").1 = Except.ok () ∧
    ((Blacksmith.mkdir sampleFs emptyWorld
        Blacksmith.RootDir.WorkingDirectory "dir_test").2).kindAt
      (Blacksmith.absOf sampleFs Blacksmith.RootDir.WorkingDirectory "dir_test") =
        some EntryKind.dir :=
  ⟨((C7_mkdir_recursive_idempotent sampleFs emptyWorld
      Blacksmith.RootDir.WorkingDirectory "dir_test").1 (by decide)).1,
   ((C7_mkdir_recursive_idempotent sampleFs emptyWorld
      Blacksmith.RootDir.WorkingDirectory "dir_test").1 (by decide)).2.1⟩

/-- Claim C6: when construction succeeds, it has eagerly created the
engine-configuration, log and save roots (by `mkdir(root, "")` on each
during `new`), so `exists(root, "")` is true for each of the three in
the world construction leaves behind. -/
theorem C6_new_creates_eager_roots :
    ∀ (fs : Blacksmith.Filesystem) (w : World),
      isOkResult (Blacksmith.new fs w).1 = true →
      Blacksmith.existsFs fs (Blacksmith.new fs w).2
        Blacksmith.RootDir.UserEngineConfigurationRoot "" = true ∧
      Blacksmith.existsFs fs (Blacksmith.new fs w).2
        Blacksmith.RootDir.UserLogRoot "" = true ∧
      Blacksmith.existsFs fs (Blacksmith.new fs w).2
        Blacksmith.RootDir.UserSaveRoot "" = true := by
  intro fs w h
  rcases h1 : Blacksmith.mkdir fs w
      Blacksmith.RootDir.UserEngineConfigurationRoot "" with ⟨r1, w1⟩
  cases r1 with
  | error e =>
    simp only [Blacksmith.new, h1] at h
    simp [isOkResult] at h
  | ok u1 =>
    rcases h2 : Blacksmith.mkdir fs w1 Blacksmith.RootDir.UserLogRoot ""
      with ⟨r2, w2⟩
    cases r2 with
    | error e =>
      simp only [Blacksmith.new, h1, h2] at h
      simp [isOkResult] at h
    | ok u2 =>
      rcases h3 : Blacksmith.mkdir fs w2 Blacksmith.RootDir.UserSaveRoot ""
        with ⟨r3, w3⟩
      cases r3 with
      | error e =>
        simp only [Blacksmith.new, h1, h2, h3] at h
        simp [isOkResult] at h
      | ok u3 =>
        have hnew : Blacksmith.new fs w = (Except.ok fs, w3) := by
          simp only [Blacksmith.new, h1, h2, h3]
        have hw : (Blacksmith.new fs w).2 = w3 := congrArg Prod.snd hnew
        have e1 : (mkdirRec w (Blacksmith.absOf fs
            Blacksmith.RootDir.UserEngineConfigurationRoot "")).1 =
            Except.ok () := congrArg Prod.fst h1
        have s1 : (mkdirRec w (Blacksmith.absOf fs
            Blacksmith.RootDir.UserEngineConfigurationRoot "")).2 = w1 :=
          congrArg Prod.snd h1
        have e2 : (mkdirRec w1 (Blacksmith.absOf fs
            Blacksmith.RootDir.UserLogRoot "")).1 = Except.ok () :=
          congrArg Prod.fst h2
        have s2 : (mkdirRec w1 (Blacksmith.absOf fs
            Blacksmith.RootDir.UserLogRoot "")).2 = w2 := congrArg Prod.snd h2
        have e3 : (mkdirRec w2 (Blacksmith.absOf fs
            Blacksmith.RootDir.UserSaveRoot "")).1 = Except.ok () :=
          congrArg Prod.fst h3
        have s3 : (mkdirRec w2 (Blacksmith.absOf fs
            Blacksmith.RootDir.UserSaveRoot "")).2 = w3 := congrArg Prod.snd h3
        have k1 : w1.kindAt (Blacksmith.absOf fs
            Blacksmith.RootDir.UserEngineConfigurationRoot "") =
            some EntryKind.dir := by
          have := mkdirRec_ok_target w _ e1
          rwa [s1] at this
        have k1b : w2.kindAt (Blacksmith.absOf fs
            Blacksmith.RootDir.UserEngineConfigurationRoot "") =
            some EntryKind.dir := by
          have := mkdirRec_preserve w1
            (Blacksmith.absOf fs Blacksmith.RootDir.UserLogRoot "") _ _ k1
          rwa [s2] at this
        have k1c : w3.kindAt (Blacksmith.absOf fs
            Blacksmith.RootDir.UserEngineConfigurationRoot "") =
            some EntryKind.dir := by
          have := mkdirRec_preserve w2
            (Blacksmith.absOf fs Blacksmith.RootDir.UserSaveRoot "") _ _ k1b
          rwa [s3] at this
        have k2 : w2.kindAt (Blacksmith.absOf fs
            Blacksmith.RootDir.UserLogRoot "") = some EntryKind.dir := by
          have := mkdirRec_ok_target w1 _ e2
          rwa [s2] at this
        have k2b : w3.kindAt (Blacksmith.absOf fs
            Blacksmith.RootDir.UserLogRoot "") = some EntryKind.dir := by
          have := mkdirRec_preserve w2
            (Blacksmith.absOf fs Blacksmith.RootDir.UserSaveRoot "") _ _ k2
          rwa [s3] at this
        have k3 : w3.kindAt (Blacksmith.absOf fs
            Blacksmith.RootDir.UserSaveRoot "") = some EntryKind.dir := by
          have := mkdirRec_ok_target w2 _ e3
          rwa [s3] at this
        rw [hw]
        refine ⟨?_, ?_, ?_⟩
        · unfold Blacksmith.existsFs World.existsAt
          rw [k1c]
          rfl
        · unfold Blacksmith.existsFs World.existsAt
          rw [k2b]
          rfl
        · unfold Blacksmith.existsFs World.existsAt
          rw [k3]
          rfl

/-- Claim C6 witness: on a concrete empty world, construction succeeds
and the three eagerly created roots exist. -/
theorem C6_new_creates_eager_roots_witness :
    Blacksmith.existsFs sampleFs (Blacksmith.new sampleFs emptyWorld).2
      Blacksmith.RootDir.UserEngineConfigurationRoot "" = true ∧
    Blacksmith.existsFs sampleFs (Blacksmith.new sampleFs emptyWorld).2
      Blacksmith.RootDir.UserLogRoot "" = true ∧
    Blacksmith.existsFs sampleFs (Blacksmith.new sampleFs emptyWorld).2
      Blacksmith.RootDir.UserSaveRoot "" = true :=
  C6_new_creates_eager_roots sampleFs emptyWorld (by decide)

end KindredFs
